import Mathlib

set_option maxRecDepth 10000

/-!
Verification of the XML-backed inventory CRUD service (src/app.py).

The service persists a list of device records ("aparelhos") to an XML file
and exposes CRUD/transfer endpoints over it.  The embedding below follows
the source line by line; the Python runtime primitives it relies on are
modelled by their documented behaviour:

* Python `int` is `Int`; `str(int)` / `int(str)` are modelled concretely on
  decimal strings (`pyIntStr` / `pyIntParse`).  Literal forms the program
  never produces (leading `+`, surrounding whitespace, `_` separators) are
  omitted from the parser.
* A CPython `float` value is modelled by its canonical shortest `repr`
  string (`PFloat`): CPython guarantees `float(repr(x)) == x` for finite
  floats and `repr` is injective on them, so finite floats are in bijection
  with their canonical repr strings.  `PFloat` equality is literal-string
  equality, which is finer than float equality on non-canonical literals;
  only strings produced by `str(float)` (hence canonical) flow through the
  verified claims.  `inf`/`nan` and `_`/whitespace literal forms are not
  modelled.
* An ElementTree element is `XTree` (tag, optional text, children; tails
  and attributes, unused by the program, are omitted).  Writing a tree
  with `tree.write` and parsing the file back with `ET.parse` returns the
  same tree except that an element whose text is the empty string is
  serialised as a self-closing tag, which parses back with `.text = None`
  (`normText`/`normEmptyF`).  The indentation whitespace `ET.indent`
  inserts into the text/tail of container nodes is not represented, since
  no reader of the file inspects it.  Text is assumed XML-representable
  (no control characters; newline normalisation is not modelled).
* The store file is `FileState`: absent, present but not well-formed XML,
  or a well-formed document.
-/

/-! ### Decimal integers: Python `str(int)` and `int(str)` -/

/-- The decimal digit character for `d < 10` (`'0'` has code point 48). -/
def digitChar (d : Nat) : Char := Char.ofNat (48 + d)

/-- Decimal digits of `n`, most significant first, with structural fuel so
that the kernel can evaluate it. -/
def natChars : Nat → Nat → List Char
  | 0, _ => []
  | fuel + 1, n =>
    if n < 10 then [digitChar n]
    else natChars fuel (n / 10) ++ [digitChar (n % 10)]

/-- Python `str` on a natural number. -/
def pyNatStr (n : Nat) : String := (natChars (n + 1) n).asString

/-- Python `str` on `int`: decimal digits, a `-` sign for negatives. -/
def pyIntStr : Int → String
  | .ofNat m => pyNatStr m
  | .negSucc m => "-" ++ pyNatStr (m + 1)

/-- Accumulating decimal reader; fails on the first non-digit. -/
def readNatAux : List Char → Nat → Option Nat
  | [], acc => some acc
  | c :: t, acc =>
    if c.isDigit then readNatAux t (10 * acc + (c.toNat - 48)) else none

/-- Decimal reader requiring at least one digit. -/
def readNat? : List Char → Option Nat
  | [] => none
  | cs => readNatAux cs 0

/-- Character-list form of `int(s)`. -/
def pyIntChars : List Char → Option Int
  | [] => none
  | c :: t =>
    if c = '-' then (readNat? t).map (fun m => -(m : Int))
    else (readNat? (c :: t)).map (fun m => (m : Int))

/-- Python `int(s)`: an optional `-` sign followed by decimal digits. -/
def pyIntParse (s : String) : Option Int := pyIntChars s.data

/-! ### Float literals: Python `float(s)` and `str(float)` -/

/-- Drop one leading sign character, if any. -/
def dropSign : List Char → List Char
  | [] => []
  | c :: t => if c = '-' ∨ c = '+' then t else c :: t

/-- Split a literal at the first `e`/`E`: mantissa and optional exponent. -/
def splitExpo : List Char → List Char × Option (List Char)
  | [] => ([], none)
  | c :: t =>
    if c = 'e' ∨ c = 'E' then ([], some t)
    else
      let p := splitExpo t
      (c :: p.1, p.2)

/-- Mantissa shape: digits, optionally with one dot, at least one digit. -/
def mantissaOK (cs : List Char) : Bool :=
  let ip := cs.takeWhile (·.isDigit)
  match cs.dropWhile (·.isDigit) with
  | [] => !ip.isEmpty
  | c :: f => c == '.' && f.all (·.isDigit) && (!ip.isEmpty || !f.isEmpty)

/-- Exponent shape: optional sign then at least one digit. -/
def expoOK (cs : List Char) : Bool :=
  let b := dropSign cs
  !b.isEmpty && b.all (·.isDigit)

/-- Recogniser for the numeric literals Python `float(s)` accepts
(`inf`/`nan`, `_` separators and surrounding whitespace omitted — the
program never produces them). -/
def isFloatLit (s : String) : Bool :=
  let p := splitExpo (dropSign s.data)
  mantissaOK p.1 && (match p.2 with | none => true | some e2 => expoOK e2)

/-- A finite CPython float value, identified with its canonical shortest
`repr` string (see the module docs). -/
abbrev PFloat : Type := { s : String // isFloatLit s = true }

/-- Python `float(s)`: succeeds exactly on float literals.  A successful
parse keeps the literal; in the verified claims only canonical `repr`
strings (produced by `str`) are ever parsed, on which this is exact. -/
def pyFloatParse (s : String) : Option PFloat :=
  if h : isFloatLit s = true then some ⟨s, h⟩ else none

/-- Whether the float value a canonical repr denotes is strictly positive:
no leading minus sign and a nonzero digit in the mantissa. -/
def pyFloatPos (f : PFloat) : Bool :=
  match f.val.data with
  | [] => false
  | c :: _ => c != '-' && (splitExpo f.val.data).1.any (fun d => d.isDigit && d != '0')

/-- Python `str` on an optional text field: `str(None) = "None"`. -/
def pyStrOfOpt : Option String → String
  | some s => s
  | none => "None"

/-! ### ElementTree documents and the store file -/

/-- An ElementTree element: tag, optional text, children. -/
inductive XTree : Type where
  | node (tag : String) (text : Option String) (children : List XTree)

def XTree.tag : XTree → String
  | .node t _ _ => t

def XTree.text : XTree → Option String
  | .node _ tx _ => tx

def XTree.children : XTree → List XTree
  | .node _ _ cs => cs

/-- `elem.findall(t)`: the direct children with tag `t`, in order. -/
def findall (t : String) (e : XTree) : List XTree :=
  e.children.filter (fun c => c.tag == t)

/-- `elem.find(t)`: the first direct child with tag `t`, if any. -/
def findChild (t : String) (e : XTree) : Option XTree :=
  e.children.find? (fun c => c.tag == t)

/-- Empty text does not survive a write/parse round trip: `ET` serialises
an element whose text is `""` as a self-closing tag, and parsing that
gives `.text = None`.  Non-empty text survives verbatim. -/
def normText : Option String → Option String
  | none => none
  | some s => if s = "" then none else some s

/-- The element tree that parsing a just-written file yields, with
structural fuel bounding the depth (the documents this program writes have
depth 3: root, record, leaf). -/
def normEmptyF : Nat → XTree → XTree
  | 0, e => e
  | fuel + 1, .node t tx cs => .node t (normText tx) (cs.map (normEmptyF fuel))

/-- The state of the store file at `ARQUIVO_ESTOQUE`. -/
inductive FileState : Type where
  | absent
  | malformed
  | doc (root : XTree)

/-! ### Records -/

/-- The record dict built by `carregar_aparelhos_xml` (lines 52–59): text
fields hold whatever `.text` returned, so they can be `None`; the
`model_dump()` of a validated `Aparelho` has the same shape with every
text field present.  Field order is the dict insertion order
`id, nome, marca, preco, categoria, deposito`, which is also the
serialisation order of lines 74–76. -/
structure ApRec : Type where
  id : Int
  nome : Option String
  marca : Option String
  preco : PFloat
  categoria : Option String
  deposito : Option String
  deriving DecidableEq

/-- The validated request model (`class Aparelho(BaseModel)`, lines 25–31). -/
structure Aparelho : Type where
  id : Int
  nome : String
  marca : String
  preco : PFloat
  categoria : String
  deposito : String
  deriving DecidableEq

/-- The Pydantic field constraints beyond typing (lines 26 and 29):
`id > 0` and `preco > 0`. -/
def Aparelho.Valid (a : Aparelho) : Prop :=
  0 < a.id ∧ pyFloatPos a.preco = true

/-- `aparelho.model_dump()`: the dict with all six fields, in declaration
order. -/
def Aparelho.dump (a : Aparelho) : ApRec :=
  ⟨a.id, some a.nome, some a.marca, a.preco, some a.categoria, some a.deposito⟩

/-! ### The store: `carregar_aparelhos_xml` / `salvar_aparelhos_xml` -/

/-- The exceptions that can escape the record loop of lines 51–60:
`find` returning `None` makes `.text` raise `AttributeError`; `int`/`float`
applied to `None` raise `TypeError`, and applied to a non-numeric string
raise `ValueError`.  None of these is caught — line 62 catches only
`ET.ParseError`. -/
inductive LoadErr : Type where
  | attributeError
  | typeError
  | valueError
  deriving DecidableEq

/-- `int(aparelho_elem.find(f).text)` with its three failure modes. -/
def intOf (f : String) (e : XTree) : Except LoadErr Int :=
  match findChild f e with
  | none => .error .attributeError
  | some c =>
    match c.text with
    | none => .error .typeError
    | some s =>
      match pyIntParse s with
      | none => .error .valueError
      | some n => .ok n

/-- `aparelho_elem.find(f).text` (no conversion, so `None` is accepted). -/
def textOf (f : String) (e : XTree) : Except LoadErr (Option String) :=
  match findChild f e with
  | none => .error .attributeError
  | some c => .ok c.text

/-- `float(aparelho_elem.find(f).text)` with its three failure modes. -/
def floatOf (f : String) (e : XTree) : Except LoadErr PFloat :=
  match findChild f e with
  | none => .error .attributeError
  | some c =>
    match c.text with
    | none => .error .typeError
    | some s =>
      match pyFloatParse s with
      | none => .error .valueError
      | some x => .ok x

/-- One record dict (lines 52–59); the fields are evaluated in the
dict-literal order, the first exception aborting the whole load. -/
def parseAp (e : XTree) : Except LoadErr ApRec := do
  let i ← intOf "id" e
  let n ← textOf "nome" e
  let m ← textOf "marca" e
  let p ← floatOf "preco" e
  let c ← textOf "categoria" e
  let d ← textOf "deposito" e
  return ⟨i, n, m, p, c, d⟩

/-- The `for aparelho_elem in root.findall('aparelho')` loop: an uncaught
exception at any record aborts the call, returning nothing. -/
def loadItems : List XTree → Except LoadErr (List ApRec)
  | [] => .ok []
  | e :: t =>
    match parseAp e with
    | .error er => .error er
    | .ok r =>
      match loadItems t with
      | .error er => .error er
      | .ok rs => .ok (r :: rs)

/-- `carregar_aparelhos_xml` (lines 36–65) as a function of the file
state: returns the state after the call together with either the loaded
list or the uncaught exception.  A missing file is initialised with an
empty `estoque` root (lines 40–45); a file that is not well-formed XML is
degraded to the empty list (lines 62–63, `except ET.ParseError`);
otherwise every `aparelho` child of the root is parsed in order. -/
def carregar_aparelhos_xml (st : FileState) :
    FileState × Except LoadErr (List ApRec) :=
  match st with
  | .absent => (.doc (.node "estoque" none []), .ok [])
  | .malformed => (.malformed, .ok [])
  | .doc root => (.doc root, loadItems (findall "aparelho" root))

/-- One leaf element `<key>str(value)</key>` (lines 74–76). -/
def leafElem (t s : String) : XTree := .node t (some s) []

/-- One `aparelho` element (lines 72–76); the record dict is iterated in
insertion order. -/
def buildAp (r : ApRec) : XTree :=
  .node "aparelho" none
    [ leafElem "id" (pyIntStr r.id)
    , leafElem "nome" (pyStrOfOpt r.nome)
    , leafElem "marca" (pyStrOfOpt r.marca)
    , leafElem "preco" r.preco.val
    , leafElem "categoria" (pyStrOfOpt r.categoria)
    , leafElem "deposito" (pyStrOfOpt r.deposito) ]

/-- The tree `salvar_aparelhos_xml` builds before writing (lines 70–77). -/
def buildTree (aps : List ApRec) : XTree :=
  .node "estoque" none (aps.map buildAp)

/-- `salvar_aparelhos_xml` (lines 68–81): overwrites the file with the
serialised tree whatever the previous state was.  The stored document is
represented by what parsing the written file yields: `normEmptyF 3`
applied to the built tree (the built trees have depth 3). -/
def salvar_aparelhos_xml (aps : List ApRec) : FileState :=
  .doc (normEmptyF 3 (buildTree aps))

/-! ### Endpoints -/

/-- The `HTTPException`s the endpoints raise: 404, 400, 400. -/
inductive ApiError : Type where
  | notFound
  | duplicateId
  | idMismatch
  deriving DecidableEq

/-- An endpoint either raises an `HTTPException` or lets a load exception
escape as a server error. -/
inductive Failure : Type where
  | http (e : ApiError)
  | uncaught (e : LoadErr)
  deriving DecidableEq

/-- Split a list at the first element satisfying `p`: the scan-and-break
loops of lines 125–128 and 162–166. -/
def findSplit (p : ApRec → Bool) :
    List ApRec → Option (List ApRec × ApRec × List ApRec)
  | [] => none
  | a :: t =>
    if p a then some ([], a, t)
    else
      match findSplit p t with
      | none => none
      | some (b, m, r) => some (a :: b, m, r)

/-- `POST /aparelhos` (lines 86–98). -/
def adicionar_aparelho (st : FileState) (aparelho : Aparelho) :
    FileState × Except Failure Aparelho :=
  match carregar_aparelhos_xml st with
  | (st1, .error e) => (st1, .error (.uncaught e))
  | (st1, .ok aparelhos) =>
    if aparelhos.any (fun a => a.id == aparelho.id) then
      (st1, .error (.http .duplicateId))
    else
      (salvar_aparelhos_xml (aparelhos ++ [aparelho.dump]), .ok aparelho)

/-- `GET /aparelhos` (lines 101–104). -/
def listar_aparelhos (st : FileState) :
    FileState × Except Failure (List ApRec) :=
  match carregar_aparelhos_xml st with
  | (st1, .error e) => (st1, .error (.uncaught e))
  | (st1, .ok aparelhos) => (st1, .ok aparelhos)

/-- `GET /aparelhos/{id}` (lines 107–116). -/
def buscar_aparelho (st : FileState) (id : Int) :
    FileState × Except Failure ApRec :=
  match carregar_aparelhos_xml st with
  | (st1, .error e) => (st1, .error (.uncaught e))
  | (st1, .ok aparelhos) =>
    match aparelhos.find? (fun a => a.id == id) with
    | some ap => (st1, .ok ap)
    | none => (st1, .error (.http .notFound))

/-- `PUT /aparelhos/{id}` (lines 119–139): find the index of the first
record with the id, 404 if none, then 400 unless the body id equals the
path id, then replace in place and save. -/
def atualizar_aparelho (st : FileState) (id : Int) (aparelho_novo : Aparelho) :
    FileState × Except Failure Aparelho :=
  match carregar_aparelhos_xml st with
  | (st1, .error e) => (st1, .error (.uncaught e))
  | (st1, .ok aparelhos) =>
    match findSplit (fun a => a.id == id) aparelhos with
    | none => (st1, .error (.http .notFound))
    | some (b, _, r) =>
      if aparelho_novo.id ≠ id then (st1, .error (.http .idMismatch))
      else (salvar_aparelhos_xml (b ++ aparelho_novo.dump :: r), .ok aparelho_novo)

/-- `DELETE /aparelhos/{id}` (lines 142–153): keep every record whose id
differs; 404 when nothing was dropped.  The confirmation message is
modelled as `Unit`. -/
def deletar_aparelho (st : FileState) (id : Int) :
    FileState × Except Failure Unit :=
  match carregar_aparelhos_xml st with
  | (st1, .error e) => (st1, .error (.uncaught e))
  | (st1, .ok aparelhos) =>
    let aparelhos_atualizados := aparelhos.filter (fun a => a.id != id)
    if aparelhos_atualizados.length = aparelhos.length then
      (st1, .error (.http .notFound))
    else
      (salvar_aparelhos_xml aparelhos_atualizados, .ok ())

/-- `PUT /aparelhos/{id}/transferir/{novo_deposito}` (lines 156–173):
mutate the first matching record's `deposito` in place and save. -/
def transferir_aparelho (st : FileState) (id : Int) (novo_deposito : String) :
    FileState × Except Failure ApRec :=
  match carregar_aparelhos_xml st with
  | (st1, .error e) => (st1, .error (.uncaught e))
  | (st1, .ok aparelhos) =>
    match findSplit (fun a => a.id == id) aparelhos with
    | none => (st1, .error (.http .notFound))
    | some (b, m, r) =>
      let m2 := { m with deposito := some novo_deposito }
      (salvar_aparelhos_xml (b ++ m2 :: r), .ok m2)

/-! ### Concrete data for witnesses and counterexamples -/

/-- The canonical repr of the float `199.99`. -/
def pf19999 : PFloat := ⟨"199.99", by decide⟩

/-- A stored record with every text field non-empty. -/
def exRec : ApRec := ⟨1, some "Phone", some "Acme", pf19999, some "electronics", some "WH1"⟩

/-- A store file holding exactly `exRec`. -/
def exState : FileState := salvar_aparelhos_xml [exRec]

/-- A validated device whose `deposito` is the empty string. -/
def cexAp : Aparelho := ⟨1, "Phone", "Acme", pf19999, "electronics", ""⟩

/-- A validated device with id 7 and no empty text field. -/
def exAp : Aparelho := ⟨7, "Tablet", "Acme", pf19999, "electronics", "WH1"⟩

/-- A well-formed record element whose `preco` text is not numeric. -/
def badRec : XTree :=
  .node "aparelho" none
    [ leafElem "id" "1", leafElem "nome" "x", leafElem "marca" "y"
    , leafElem "preco" "abc", leafElem "categoria" "c", leafElem "deposito" "d" ]

/-- A well-formed document containing `badRec`. -/
def badTree : XTree := .node "estoque" none [badRec]

/-- Two distinct records sharing id 1 (a collection violating the
uniqueness invariant). -/
def dupA : ApRec := ⟨1, some "A", some "Acme", pf19999, some "cat", some "WH1"⟩

/-- Second record with the duplicated id 1. -/
def dupB : ApRec := ⟨1, some "B", some "Acme", pf19999, some "cat", some "WH2"⟩

/-- A store file holding the duplicated-id collection. -/
def dupState : FileState := salvar_aparelhos_xml [dupA, dupB]

/-! ### Lemmas: decimal round trip -/

theorem readNatAux_append (xs ys : List Char) (a : Nat) :
    readNatAux (xs ++ ys) a =
      match readNatAux xs a with
      | none => none
      | some b => readNatAux ys b := by
  induction xs generalizing a with
  | nil => rfl
  | cons c t ih =>
    simp only [List.cons_append, readNatAux]
    by_cases h : c.isDigit <;> simp [h, ih]

theorem digitChar_isDigit {d : Nat} (h : d < 10) : (digitChar d).isDigit = true := by
  interval_cases d <;> decide

theorem digitChar_sub {d : Nat} (h : d < 10) : (digitChar d).toNat - 48 = d := by
  interval_cases d <;> decide

theorem natChars_eval (fuel : Nat) :
    ∀ n acc, n < fuel →
      readNatAux (natChars fuel n) acc =
        some (acc * 10 ^ (natChars fuel n).length + n) := by
  induction fuel with
  | zero => intro n acc h; exact absurd h (Nat.not_lt_zero n)
  | succ f ih =>
    intro n acc h
    by_cases h10 : n < 10
    · simp only [natChars, if_pos h10, readNatAux, digitChar_isDigit h10,
        digitChar_sub h10, if_pos, List.length_cons, List.length_nil]
      congr 1
      ring
    · have hdiv : n / 10 < f := by omega
      simp only [natChars, if_neg h10]
      rw [readNatAux_append, ih (n / 10) acc hdiv]
      have hm : n % 10 < 10 := Nat.mod_lt _ (by norm_num)
      simp only [readNatAux, digitChar_isDigit hm, digitChar_sub hm, if_pos,
        List.length_append, List.length_cons, List.length_nil]
      congr 1
      have hd : 10 * (n / 10) + n % 10 = n := Nat.div_add_mod n 10
      calc 10 * (acc * 10 ^ (natChars f (n / 10)).length + n / 10) + n % 10
          = acc * 10 ^ ((natChars f (n / 10)).length + 1)
              + (10 * (n / 10) + n % 10) := by ring
        _ = acc * 10 ^ ((natChars f (n / 10)).length + 1) + n := by rw [hd]

theorem natChars_ne_nil (f n : Nat) : natChars (f + 1) n ≠ [] := by
  simp only [natChars]
  split <;> simp

theorem natChars_digits (fuel : Nat) :
    ∀ n, n < fuel → ∀ c ∈ natChars fuel n, c.isDigit = true := by
  induction fuel with
  | zero => intro n h; exact absurd h (Nat.not_lt_zero n)
  | succ f ih =>
    intro n h c hc
    by_cases h10 : n < 10
    · simp only [natChars, if_pos h10, List.mem_singleton] at hc
      subst hc; exact digitChar_isDigit h10
    · have hdiv : n / 10 < f := by omega
      simp only [natChars, if_neg h10, List.mem_append, List.mem_singleton] at hc
      rcases hc with hc | hc
      · exact ih (n / 10) hdiv c hc
      · subst hc; exact digitChar_isDigit (Nat.mod_lt _ (by norm_num))

theorem data_asString (l : List Char) : (List.asString l).data = l := rfl

theorem isDigit_ne_dash {c : Char} (h : c.isDigit = true) : ¬ c = '-' := by
  intro he; subst he; exact absurd h (by decide)

theorem readNatAux_natChars (n : Nat) : readNatAux (natChars (n + 1) n) 0 = some n := by
  have := natChars_eval (n + 1) n 0 (Nat.lt_succ_self n)
  simpa using this

theorem pyIntParse_pyIntStr (n : Int) : pyIntParse (pyIntStr n) = some n := by
  cases n with
  | ofNat m =>
    show pyIntParse (pyNatStr m) = some (Int.ofNat m)
    obtain ⟨c, t, hct⟩ := List.exists_cons_of_ne_nil (natChars_ne_nil m m)
    have hdig : c.isDigit = true := by
      refine natChars_digits (m + 1) m (Nat.lt_succ_self m) c ?_
      rw [hct]; exact List.mem_cons_self c t
    unfold pyIntParse pyNatStr
    rw [data_asString, hct]
    simp only [pyIntChars, if_neg (isDigit_ne_dash hdig)]
    rw [← hct]
    have hr : readNat? (natChars (m + 1) m) = readNatAux (natChars (m + 1) m) 0 := by
      rw [hct]; rfl
    rw [hr, readNatAux_natChars]
    rfl
  | negSucc m =>
    show pyIntParse ("-" ++ pyNatStr (m + 1)) = some (Int.negSucc m)
    have hdata : ("-" ++ pyNatStr (m + 1)).data = '-' :: natChars (m + 2) (m + 1) := by
      rw [String.data_append]; rfl
    unfold pyIntParse
    rw [hdata]
    simp only [pyIntChars, if_pos rfl]
    obtain ⟨c, t, hct⟩ := List.exists_cons_of_ne_nil (natChars_ne_nil (m + 1) (m + 1))
    have hr : readNat? (natChars (m + 2) (m + 1)) = readNatAux (natChars (m + 2) (m + 1)) 0 := by
      rw [hct]; rfl
    rw [hr, readNatAux_natChars (m + 1)]
    simp [Int.negSucc_eq]

theorem pyNatStr_ne_empty (n : Nat) : pyNatStr n ≠ "" := by
  intro h
  have := congrArg String.data h
  rw [pyNatStr, data_asString] at this
  exact natChars_ne_nil n n this

theorem pyIntStr_ne_empty (n : Int) : pyIntStr n ≠ "" := by
  cases n with
  | ofNat m => exact pyNatStr_ne_empty m
  | negSucc m =>
    intro h
    have := congrArg String.data h
    rw [show pyIntStr (Int.negSucc m) = "-" ++ pyNatStr (m + 1) from rfl,
      String.data_append] at this
    simp at this

theorem PFloat.val_ne_empty (f : PFloat) : f.val ≠ "" := by
  intro h
  have := f.property
  rw [h] at this
  exact absurd this (by decide)

theorem pyFloatParse_val (f : PFloat) : pyFloatParse f.val = some f := by
  simp [pyFloatParse, f.property]

/-! ### Lemmas: the saved document and its reload -/

theorem normF_buildAp (r : ApRec) :
    normEmptyF 2 (buildAp r) =
      .node "aparelho" none
        [ .node "id" (normText (some (pyIntStr r.id))) []
        , .node "nome" (normText (some (pyStrOfOpt r.nome))) []
        , .node "marca" (normText (some (pyStrOfOpt r.marca))) []
        , .node "preco" (normText (some r.preco.val)) []
        , .node "categoria" (normText (some (pyStrOfOpt r.categoria))) []
        , .node "deposito" (normText (some (pyStrOfOpt r.deposito))) [] ] := by
  simp [buildAp, leafElem, normEmptyF, normText]

theorem normF_buildTree (aps : List ApRec) :
    normEmptyF 3 (buildTree aps) =
      .node "estoque" none (aps.map (fun r => normEmptyF 2 (buildAp r))) := by
  simp [buildTree, normEmptyF, normText, List.map_map]

theorem tag_normF_buildAp (r : ApRec) :
    (normEmptyF 2 (buildAp r)).tag = "aparelho" := by
  rw [normF_buildAp]; rfl

theorem findall_saved (aps : List ApRec) :
    findall "aparelho" (normEmptyF 3 (buildTree aps)) =
      aps.map (fun r => normEmptyF 2 (buildAp r)) := by
  rw [normF_buildTree]
  show List.filter _ (aps.map (fun r => normEmptyF 2 (buildAp r))) = _
  rw [List.filter_eq_self.mpr]
  intro a ha
  obtain ⟨r, _, hr⟩ := List.mem_map.mp ha
  subst hr
  simp [tag_normF_buildAp]

theorem parseAp_saved_dump (a : Aparelho) (h1 : a.nome ≠ "") (h2 : a.marca ≠ "")
    (h3 : a.categoria ≠ "") (h4 : a.deposito ≠ "") :
    parseAp (normEmptyF 2 (buildAp a.dump)) = .ok a.dump := by
  have hT : normEmptyF 2 (buildAp a.dump) =
      .node "aparelho" none
        [ .node "id" (some (pyIntStr a.id)) []
        , .node "nome" (some a.nome) []
        , .node "marca" (some a.marca) []
        , .node "preco" (some a.preco.val) []
        , .node "categoria" (some a.categoria) []
        , .node "deposito" (some a.deposito) [] ] := by
    rw [normF_buildAp]
    simp [Aparelho.dump, pyStrOfOpt, normText, h1, h2, h3, h4,
      pyIntStr_ne_empty, PFloat.val_ne_empty]
  rw [hT]
  have hid : intOf "id"
      (XTree.node "aparelho" none
        [ .node "id" (some (pyIntStr a.id)) []
        , .node "nome" (some a.nome) []
        , .node "marca" (some a.marca) []
        , .node "preco" (some a.preco.val) []
        , .node "categoria" (some a.categoria) []
        , .node "deposito" (some a.deposito) [] ]) = .ok a.id := by
    show (match pyIntParse (pyIntStr a.id) with
      | none => Except.error LoadErr.valueError
      | some n => Except.ok n) = Except.ok a.id
    rw [pyIntParse_pyIntStr]
  have hpr : floatOf "preco"
      (XTree.node "aparelho" none
        [ .node "id" (some (pyIntStr a.id)) []
        , .node "nome" (some a.nome) []
        , .node "marca" (some a.marca) []
        , .node "preco" (some a.preco.val) []
        , .node "categoria" (some a.categoria) []
        , .node "deposito" (some a.deposito) [] ]) = .ok a.preco := by
    show (match pyFloatParse a.preco.val with
      | none => Except.error LoadErr.valueError
      | some x => Except.ok x) = Except.ok a.preco
    rw [pyFloatParse_val]
  simp only [parseAp, hid, hpr]
  rfl

theorem loadItems_saved (aps : List Aparelho)
    (h : ∀ a ∈ aps, a.nome ≠ "" ∧ a.marca ≠ "" ∧ a.categoria ≠ "" ∧ a.deposito ≠ "") :
    loadItems ((aps.map Aparelho.dump).map (fun r => normEmptyF 2 (buildAp r))) =
      .ok (aps.map Aparelho.dump) := by
  induction aps with
  | nil => rfl
  | cons a t ih =>
    obtain ⟨h1, h2, h3, h4⟩ := h a (List.mem_cons_self a t)
    have ht := ih (fun x hx => h x (List.mem_cons_of_mem a hx))
    simp only [List.map_cons, loadItems, parseAp_saved_dump a h1 h2 h3 h4, ht]

theorem loadItems_error {rec : XTree} {e0 : LoadErr} :
    ∀ {xs : List XTree}, rec ∈ xs → parseAp rec = .error e0 →
      ∃ e, loadItems xs = .error e := by
  intro xs
  induction xs with
  | nil => intro h; exact absurd h (List.not_mem_nil rec)
  | cons x t ih =>
    intro hmem herr
    rcases List.mem_cons.mp hmem with hx | hx
    · subst hx
      exact ⟨e0, by simp only [loadItems, herr]⟩
    · obtain ⟨e1, he1⟩ := ih hx herr
      match hpx : parseAp x with
      | .error er => exact ⟨er, by simp only [loadItems, hpx]⟩
      | .ok r => exact ⟨e1, by simp only [loadItems, hpx, he1]⟩

/-! ### Lemmas: loading is stable and the scan loops behave -/

theorem carregar_stable {st st' : FileState} {l : List ApRec}
    (h : carregar_aparelhos_xml st = (st', .ok l)) :
    carregar_aparelhos_xml st' = (st', .ok l) := by
  cases st with
  | absent =>
    rw [show carregar_aparelhos_xml FileState.absent =
        (FileState.doc (XTree.node "estoque" none []), Except.ok ([] : List ApRec)) from rfl,
      Prod.mk.injEq] at h
    obtain ⟨h1, h2⟩ := h
    subst h1
    rw [← h2]
    rfl
  | malformed =>
    rw [show carregar_aparelhos_xml FileState.malformed =
        (FileState.malformed, Except.ok ([] : List ApRec)) from rfl,
      Prod.mk.injEq] at h
    obtain ⟨h1, h2⟩ := h
    subst h1
    rw [← h2]
    rfl
  | doc root =>
    rw [show carregar_aparelhos_xml (FileState.doc root) =
        (FileState.doc root, loadItems (findall "aparelho" root)) from rfl,
      Prod.mk.injEq] at h
    obtain ⟨h1, h2⟩ := h
    subst h1
    rw [show carregar_aparelhos_xml (FileState.doc root) =
      (FileState.doc root, loadItems (findall "aparelho" root)) from rfl, h2]

theorem findSplit_eq_none {p : ApRec → Bool} :
    ∀ {l : List ApRec}, (∀ a ∈ l, p a = false) → findSplit p l = none := by
  intro l
  induction l with
  | nil => intro _; rfl
  | cons a t ih =>
    intro h
    have ha := h a (List.mem_cons_self a t)
    have ht := ih (fun x hx => h x (List.mem_cons_of_mem a hx))
    simp only [findSplit, ha, Bool.false_eq_true, if_false, ht]

theorem findSplit_first {p : ApRec → Bool} (b : List ApRec) (m : ApRec) (r : List ApRec)
    (hb : ∀ a ∈ b, p a = false) (hm : p m = true) :
    findSplit p (b ++ m :: r) = some (b, m, r) := by
  induction b with
  | nil => simp only [List.nil_append, findSplit, hm, if_true]
  | cons a t ih =>
    have ha := hb a (List.mem_cons_self a t)
    have ht := ih (fun x hx => hb x (List.mem_cons_of_mem a hx))
    simp only [List.cons_append, findSplit, ha, Bool.false_eq_true, if_false,
      List.append_eq, ht]

theorem id_beq_false {a : ApRec} {id : Int} (h : a.id ≠ id) : (a.id == id) = false :=
  beq_eq_false_iff_ne.mpr h

theorem filter_keep_of_absent {l : List ApRec} {id : Int}
    (h : ∀ a ∈ l, a.id ≠ id) : l.filter (fun a => a.id != id) = l :=
  List.filter_eq_self.mpr (fun a ha => bne_iff_ne.mpr (h a ha))

theorem filter_shrinks_of_mem {l : List ApRec} {id : Int}
    (hex : ∃ a ∈ l, a.id = id) :
    (l.filter (fun a => a.id != id)).length ≠ l.length := by
  intro hlen
  have heq : l.filter (fun a => a.id != id) = l :=
    (List.filter_sublist l).eq_of_length hlen
  obtain ⟨a, ha, hid⟩ := hex
  rw [← heq] at ha
  have := (List.mem_filter.mp ha).2
  rw [hid] at this
  simp at this

/-! ### Claim theorems -/

/-- C8: when no document file exists, `carregar_aparelhos_xml` creates an
empty well-formed document — an `estoque` root with no children — at the
configured path as a side effect and returns the empty collection. -/
theorem carregar_absent_initializes :
    carregar_aparelhos_xml FileState.absent =
      (FileState.doc (XTree.node "estoque" none []), Except.ok []) ∧
    (XTree.node "estoque" none []).children = [] :=
  ⟨rfl, rfl⟩

/-- C9: the document written by `salvar_aparelhos_xml` has a single
`estoque` root with one `aparelho` child per record, each child holding
exactly six leaves, in the order `id, nome, marca, preco, categoria,
deposito`, each leaf's text being the string form of the field value. -/
theorem salvar_document_shape (aps : List ApRec) :
    salvar_aparelhos_xml aps = FileState.doc (normEmptyF 3 (buildTree aps)) ∧
    (buildTree aps).tag = "estoque" ∧
    (buildTree aps).children.length = aps.length ∧
    (∀ (i : Nat) (r : ApRec), aps[i]? = some r →
      (buildTree aps).children[i]? = some (XTree.node "aparelho" none
        [ XTree.node "id" (some (pyIntStr r.id)) []
        , XTree.node "nome" (some (pyStrOfOpt r.nome)) []
        , XTree.node "marca" (some (pyStrOfOpt r.marca)) []
        , XTree.node "preco" (some r.preco.val) []
        , XTree.node "categoria" (some (pyStrOfOpt r.categoria)) []
        , XTree.node "deposito" (some (pyStrOfOpt r.deposito)) [] ])) := by
  refine ⟨rfl, rfl, ?_, ?_⟩
  · show (aps.map buildAp).length = aps.length
    simp
  · intro i r h
    show (aps.map buildAp)[i]? = _
    rw [List.getElem?_map, h]
    rfl

/-- Witness for C9 at the one-record collection `[exRec]`. -/
theorem salvar_document_shape_witness :
    ([exRec][0]? = some exRec) ∧
    (buildTree [exRec]).children[0]? = some (XTree.node "aparelho" none
      [ XTree.node "id" (some (pyIntStr exRec.id)) []
      , XTree.node "nome" (some (pyStrOfOpt exRec.nome)) []
      , XTree.node "marca" (some (pyStrOfOpt exRec.marca)) []
      , XTree.node "preco" (some exRec.preco.val) []
      , XTree.node "categoria" (some (pyStrOfOpt exRec.categoria)) []
      , XTree.node "deposito" (some (pyStrOfOpt exRec.deposito)) [] ]) :=
  ⟨rfl, (salvar_document_shape [exRec]).2.2.2 0 exRec rfl⟩

/-- C1 counterexample: the claim "saving any collection of valid devices
and loading it back yields an equal collection" fails for the valid device
`cexAp`, whose `deposito` is the empty string: its leaf is written as a
self-closing tag and read back as `None`. -/
theorem save_load_roundtrip_cex :
    cexAp.Valid ∧
    (carregar_aparelhos_xml (salvar_aparelhos_xml [cexAp.dump])).2 ≠
      Except.ok [cexAp.dump] := by
  constructor
  · exact ⟨by decide, by decide⟩
  · intro hEq
    have h1 : (carregar_aparelhos_xml (salvar_aparelhos_xml [cexAp.dump])).2 =
        Except.ok [(⟨1, some "Phone", some "Acme", pf19999, some "electronics", none⟩ : ApRec)] :=
      rfl
    rw [h1] at hEq
    simp [cexAp, Aparelho.dump] at hEq

/-- C1 (amended): saving a collection of devices whose text fields are all
non-empty and loading it back yields an equal collection — same length,
order, and field values — including the empty collection.  (A device with
an empty text field is read back with that field `None`, so the unrestricted
claim fails; see the counterexample.) -/
theorem save_load_roundtrip (aps : List Aparelho)
    (h : ∀ a ∈ aps, a.nome ≠ "" ∧ a.marca ≠ "" ∧ a.categoria ≠ "" ∧ a.deposito ≠ "") :
    carregar_aparelhos_xml (salvar_aparelhos_xml (aps.map Aparelho.dump)) =
      (salvar_aparelhos_xml (aps.map Aparelho.dump),
       Except.ok (aps.map Aparelho.dump)) := by
  rw [show carregar_aparelhos_xml (salvar_aparelhos_xml (aps.map Aparelho.dump)) =
      (salvar_aparelhos_xml (aps.map Aparelho.dump),
       loadItems (findall "aparelho" (normEmptyF 3 (buildTree (aps.map Aparelho.dump)))))
    from rfl]
  rw [findall_saved, loadItems_saved aps h]

/-- Witness for C1 (amended) at the singleton collection `[exAp]`. -/
theorem save_load_roundtrip_witness :
    (∀ a ∈ [exAp], a.nome ≠ "" ∧ a.marca ≠ "" ∧ a.categoria ≠ "" ∧ a.deposito ≠ "") ∧
    carregar_aparelhos_xml (salvar_aparelhos_xml ([exAp].map Aparelho.dump)) =
      (salvar_aparelhos_xml ([exAp].map Aparelho.dump),
       Except.ok ([exAp].map Aparelho.dump)) :=
  ⟨by decide, save_load_roundtrip [exAp] (by decide)⟩

/-- C2: for every stored collection and every id absent from it, `get`,
`replace`, `remove` and `transfer` all fail with 404 Not Found, no save is
performed (the resulting state is exactly the post-load state), and the
stored collection still loads unchanged. -/
theorem notFound_unchanged (st st' : FileState) (l : List ApRec) (id : Int)
    (d : Aparelho) (dep : String)
    (hcar : carregar_aparelhos_xml st = (st', Except.ok l))
    (habs : ∀ a ∈ l, a.id ≠ id) :
    buscar_aparelho st id = (st', .error (.http .notFound)) ∧
    atualizar_aparelho st id d = (st', .error (.http .notFound)) ∧
    deletar_aparelho st id = (st', .error (.http .notFound)) ∧
    transferir_aparelho st id dep = (st', .error (.http .notFound)) ∧
    carregar_aparelhos_xml st' = (st', Except.ok l) := by
  have hfalse : ∀ a ∈ l, ((fun a => a.id == id) a) = false :=
    fun a ha => id_beq_false (habs a ha)
  have hfind : l.find? (fun a => a.id == id) = none :=
    List.find?_eq_none.mpr (fun a ha => by simp [hfalse a ha])
  refine ⟨?_, ?_, ?_, ?_, carregar_stable hcar⟩
  · simp only [buscar_aparelho, hcar, hfind]
  · simp only [atualizar_aparelho, hcar, findSplit_eq_none hfalse]
  · have hkeep := filter_keep_of_absent habs
    simp [deletar_aparelho, hcar, hkeep]
  · simp only [transferir_aparelho, hcar, findSplit_eq_none hfalse]

/-- Witness for C2: the store holds only `exRec` (id 1) and id 2 is
requested. -/
theorem notFound_unchanged_witness :
    carregar_aparelhos_xml exState = (exState, Except.ok [exRec]) ∧
    (∀ a ∈ [exRec], a.id ≠ 2) ∧
    (buscar_aparelho exState 2 = (exState, .error (.http .notFound)) ∧
     atualizar_aparelho exState 2 exAp = (exState, .error (.http .notFound)) ∧
     deletar_aparelho exState 2 = (exState, .error (.http .notFound)) ∧
     transferir_aparelho exState 2 "WH9" = (exState, .error (.http .notFound)) ∧
     carregar_aparelhos_xml exState = (exState, Except.ok [exRec])) :=
  ⟨rfl, by decide, notFound_unchanged exState exState [exRec] 2 exAp "WH9" rfl (by decide)⟩

/-- C3: `add` fails with 400 Duplicate Id when a stored record already has
the device's id, leaving the stored collection unchanged; otherwise the
saved collection is the old one with the device appended last and the
device is returned. -/
theorem adicionar_spec (st st' : FileState) (l : List ApRec) (d : Aparelho)
    (hcar : carregar_aparelhos_xml st = (st', Except.ok l)) :
    ((∃ a ∈ l, a.id = d.id) →
      adicionar_aparelho st d = (st', .error (.http .duplicateId)) ∧
      carregar_aparelhos_xml st' = (st', Except.ok l)) ∧
    ((∀ a ∈ l, a.id ≠ d.id) →
      adicionar_aparelho st d =
        (salvar_aparelhos_xml (l ++ [d.dump]), Except.ok d)) := by
  constructor
  · intro hex
    have hany : l.any (fun a => a.id == d.id) = true := by
      rw [List.any_eq_true]
      obtain ⟨a, ha, he⟩ := hex
      exact ⟨a, ha, beq_iff_eq.mpr he⟩
    refine ⟨?_, carregar_stable hcar⟩
    simp only [adicionar_aparelho, hcar, hany, if_true]
  · intro habs
    have hany : l.any (fun a => a.id == d.id) = false := by
      rw [List.any_eq_false]
      intro a ha
      simp [id_beq_false (habs a ha)]
    simp only [adicionar_aparelho, hcar, hany, Bool.false_eq_true, if_false]

/-- Witness for C3: adding `exAp` to an absent store (which loads as the
empty collection) appends it and returns it. -/
theorem adicionar_spec_witness :
    carregar_aparelhos_xml FileState.absent =
      (FileState.doc (XTree.node "estoque" none []), Except.ok []) ∧
    (∀ a ∈ ([] : List ApRec), a.id ≠ exAp.id) ∧
    adicionar_aparelho FileState.absent exAp =
      (salvar_aparelhos_xml ([] ++ [exAp.dump]), Except.ok exAp) :=
  ⟨rfl, by decide,
   (adicionar_spec FileState.absent (FileState.doc (XTree.node "estoque" none []))
     [] exAp rfl).2 (by decide)⟩

/-- C10: when the path id is absent from the stored collection and the body
id also differs from the path id, `atualizar_aparelho` fails with 404 Not
Found, not 400 Id Mismatch: the not-found check runs first. -/
theorem atualizar_notFound_priority (st st' : FileState) (l : List ApRec)
    (id : Int) (novo : Aparelho)
    (hcar : carregar_aparelhos_xml st = (st', Except.ok l))
    (habs : ∀ a ∈ l, a.id ≠ id) (_hne : novo.id ≠ id) :
    atualizar_aparelho st id novo = (st', .error (.http .notFound)) := by
  have hfalse : ∀ a ∈ l, ((fun a => a.id == id) a) = false :=
    fun a ha => id_beq_false (habs a ha)
  simp only [atualizar_aparelho, hcar, findSplit_eq_none hfalse]

/-- Witness for C10: the store holds only `exRec` (id 1); replacing id 2
with body `exAp` (id 7) yields 404. -/
theorem atualizar_notFound_priority_witness :
    carregar_aparelhos_xml exState = (exState, Except.ok [exRec]) ∧
    (∀ a ∈ [exRec], a.id ≠ 2) ∧ exAp.id ≠ 2 ∧
    atualizar_aparelho exState 2 exAp = (exState, .error (.http .notFound)) :=
  ⟨rfl, by decide, by decide,
   atualizar_notFound_priority exState exState [exRec] 2 exAp rfl (by decide) (by decide)⟩

/-- C6: with a stored record matching the path id (first match `m`),
`replace` fails with 400 Id Mismatch and leaves storage unchanged when the
body id differs from the path id; when they agree the matching record is
replaced in place at its position and the new device is returned. -/
theorem atualizar_spec (st st' : FileState) (b : List ApRec) (m : ApRec)
    (r : List ApRec) (id : Int) (novo : Aparelho)
    (hcar : carregar_aparelhos_xml st = (st', Except.ok (b ++ m :: r)))
    (hb : ∀ a ∈ b, a.id ≠ id) (hm : m.id = id) :
    (novo.id ≠ id →
      atualizar_aparelho st id novo = (st', .error (.http .idMismatch)) ∧
      carregar_aparelhos_xml st' = (st', Except.ok (b ++ m :: r))) ∧
    (novo.id = id →
      atualizar_aparelho st id novo =
        (salvar_aparelhos_xml (b ++ novo.dump :: r), Except.ok novo)) := by
  have hsplit : findSplit (fun a => a.id == id) (b ++ m :: r) = some (b, m, r) :=
    findSplit_first b m r (fun a ha => id_beq_false (hb a ha)) (beq_iff_eq.mpr hm)
  constructor
  · intro hne
    refine ⟨?_, carregar_stable hcar⟩
    simp only [atualizar_aparelho, hcar, hsplit, if_pos hne]
  · intro heq
    have hnn : ¬ novo.id ≠ id := fun hh => hh heq
    simp only [atualizar_aparelho, hcar, hsplit, if_neg hnn]

/-- Witness for C6 at the one-record store: replacing id 1 with a body of
id 7 is a 400 Id Mismatch and storage still loads unchanged. -/
theorem atualizar_spec_witness :
    carregar_aparelhos_xml exState = (exState, Except.ok ([] ++ exRec :: [])) ∧
    (∀ a ∈ ([] : List ApRec), a.id ≠ 1) ∧ exRec.id = 1 ∧ exAp.id ≠ 1 ∧
    (atualizar_aparelho exState 1 exAp = (exState, .error (.http .idMismatch)) ∧
     carregar_aparelhos_xml exState = (exState, Except.ok ([] ++ exRec :: []))) :=
  ⟨rfl, by decide, rfl, by decide,
   (atualizar_spec exState exState [] exRec [] 1 exAp rfl (by decide) rfl).1 (by decide)⟩

/-- C7: with a stored record matching the given id (first match `m`),
`transfer` succeeds, the saved collection differs from the loaded one only
at that record, whose `deposito` becomes the new location while its other
five fields and its position are preserved, and the updated record is
returned. -/
theorem transferir_frame (st st' : FileState) (b : List ApRec) (m : ApRec)
    (r : List ApRec) (id : Int) (dep : String)
    (hcar : carregar_aparelhos_xml st = (st', Except.ok (b ++ m :: r)))
    (hb : ∀ a ∈ b, a.id ≠ id) (hm : m.id = id) :
    transferir_aparelho st id dep =
      (salvar_aparelhos_xml (b ++ { m with deposito := some dep } :: r),
       Except.ok { m with deposito := some dep }) ∧
    ({ m with deposito := some dep }).id = m.id ∧
    ({ m with deposito := some dep }).nome = m.nome ∧
    ({ m with deposito := some dep }).marca = m.marca ∧
    ({ m with deposito := some dep }).preco = m.preco ∧
    ({ m with deposito := some dep }).categoria = m.categoria ∧
    ({ m with deposito := some dep }).deposito = some dep := by
  have hsplit : findSplit (fun a => a.id == id) (b ++ m :: r) = some (b, m, r) :=
    findSplit_first b m r (fun a ha => id_beq_false (hb a ha)) (beq_iff_eq.mpr hm)
  refine ⟨?_, rfl, rfl, rfl, rfl, rfl, rfl⟩
  simp only [transferir_aparelho, hcar, hsplit]

/-- Witness for C7: transferring the only stored record (id 1) to "WH2". -/
theorem transferir_frame_witness :
    carregar_aparelhos_xml exState = (exState, Except.ok ([] ++ exRec :: [])) ∧
    (∀ a ∈ ([] : List ApRec), a.id ≠ 1) ∧ exRec.id = 1 ∧
    transferir_aparelho exState 1 "WH2" =
      (salvar_aparelhos_xml ([] ++ { exRec with deposito := some "WH2" } :: []),
       Except.ok { exRec with deposito := some "WH2" }) :=
  ⟨rfl, by decide, rfl,
   (transferir_frame exState exState [] exRec [] 1 "WH2" rfl (by decide) rfl).1⟩

/-- C5 counterexample: on a stored collection with two records of id 1,
`deletar_aparelho` does not use first-match semantics: it removes both
occurrences, saving the empty collection instead of the collection that
keeps the later duplicate. -/
theorem deletar_first_match_cex :
    carregar_aparelhos_xml dupState = (dupState, Except.ok [dupA, dupB]) ∧
    dupA.id = 1 ∧ dupB.id = 1 ∧ dupA ≠ dupB ∧
    deletar_aparelho dupState 1 = (salvar_aparelhos_xml [], Except.ok ()) ∧
    salvar_aparelhos_xml [] ≠ salvar_aparelhos_xml [dupB] := by
  refine ⟨rfl, rfl, rfl, by decide, rfl, ?_⟩
  intro h
  have h2 : (0 : Nat) = 1 :=
    congrArg (fun s => match s with | FileState.doc t => t.children.length | _ => 0) h
  exact absurd h2 (by decide)

/-- C5 (amended): on every stored collection containing the target id —
including collections violating the uniqueness invariant — `delete`
removes every record whose id matches (not only the first occurrence in
document order), and never raises an internal ambiguity error. -/
theorem deletar_removes_all (st st' : FileState) (l : List ApRec) (id : Int)
    (hcar : carregar_aparelhos_xml st = (st', Except.ok l))
    (hex : ∃ a ∈ l, a.id = id) :
    deletar_aparelho st id =
      (salvar_aparelhos_xml (l.filter (fun a => a.id != id)), Except.ok ()) := by
  have hne := filter_shrinks_of_mem hex
  simp only [deletar_aparelho, hcar, if_neg hne]

/-- Witness for C5 (amended) at the duplicated-id store. -/
theorem deletar_removes_all_witness :
    carregar_aparelhos_xml dupState = (dupState, Except.ok [dupA, dupB]) ∧
    (∃ a ∈ [dupA, dupB], a.id = 1) ∧
    deletar_aparelho dupState 1 =
      (salvar_aparelhos_xml ([dupA, dupB].filter (fun a => a.id != 1)), Except.ok ()) :=
  ⟨rfl, by decide, deletar_removes_all dupState dupState [dupA, dupB] 1 rfl (by decide)⟩

/-- C4 counterexample: the claim "a well-formed document containing a
record with a non-convertible value is treated like the malformed case —
the caller does not fail and gets an empty collection" is false: on
`badTree` (whose `preco` text is "abc") the load raises `ValueError`
instead of returning the empty collection. -/
theorem carregar_bad_record_cex :
    carregar_aparelhos_xml (FileState.doc badTree) =
      (FileState.doc badTree, Except.error LoadErr.valueError) ∧
    (Except.error LoadErr.valueError : Except LoadErr (List ApRec)) ≠ Except.ok [] := by
  refine ⟨rfl, ?_⟩
  intro h
  exact Except.noConfusion h

/-- C4 (amended): a well-formed document containing a record that fails to
parse (missing field or non-convertible value) makes
`carregar_aparelhos_xml` fail the caller with an uncaught exception; only
a document that is not well-formed XML is degraded to the empty
collection. -/
theorem carregar_bad_record_raises (root : XTree) (rec : XTree) (e0 : LoadErr)
    (hmem : rec ∈ findall "aparelho" root)
    (herr : parseAp rec = Except.error e0) :
    ∃ e, carregar_aparelhos_xml (FileState.doc root) =
      (FileState.doc root, Except.error e) := by
  obtain ⟨e, he⟩ := loadItems_error hmem herr
  exact ⟨e, by simp only [carregar_aparelhos_xml, he]⟩

/-- Witness for C4 (amended) at `badTree`. -/
theorem carregar_bad_record_raises_witness :
    badRec ∈ findall "aparelho" badTree ∧
    parseAp badRec = Except.error LoadErr.valueError ∧
    (∃ e, carregar_aparelhos_xml (FileState.doc badTree) =
      (FileState.doc badTree, Except.error e)) :=
  ⟨List.mem_singleton.mpr rfl, rfl,
   carregar_bad_record_raises badTree badRec LoadErr.valueError
     (List.mem_singleton.mpr rfl) rfl⟩
